import Mathlib

/-!
Verification of the solc-DApp build tool (`main.py`, `utils/utils.py`).

The Python code is shallowly embedded: the filesystem is an explicit
structure of functions (`FS`), the input directory listing is an explicit
tree (`DirEntry`), and every utility function of `utils.py` is translated
into an executable Lean definition that mirrors the control flow of its
source line by line.  The external `solidity_parser` library is modelled
by an oracle field `FS.parsed` returning the directive list of a file (or
`none` when the parser raises), since that library is not part of this
repository.  Subprocess side effects (solc, solc-select, mkdir, graph
rendering) are modelled by the data each call would receive: the per-file
driver outcome records the version switched to and the full shell command
string built for solc.
-/

namespace SolcDapp

/-- Python `\s` on ASCII text: space, tab, newline, carriage return,
form feed, vertical tab. -/
def isPySpace (c : Char) : Bool :=
  c == ' ' || c == '\t' || c == '\n' || c == '\x0d' || c == '\x0c' || c == '\x0b'

/-- Does `needle` begin `hay`? -/
def beginsWith : List Char → List Char → Bool
  | [], _ => true
  | _ :: _, [] => false
  | a :: as, b :: bs => a == b && beginsWith as bs

/-- Split a character list at every occurrence of `sep` (the semantics of
`String.splitOn` with a one-character separator, kept structural so that
the kernel can evaluate it). -/
def splitChAux (sep : Char) : List Char → List Char → List String
  | [], cur => [String.mk cur.reverse]
  | c :: rest, cur =>
    if c == sep then String.mk cur.reverse :: splitChAux sep rest []
    else splitChAux sep rest (c :: cur)

/-- `s.split(sep)` for a one-character separator. -/
def splitOnChS (sep : Char) (s : String) : List String :=
  splitChAux sep s.data []

/-- `sep.join(parts)`. -/
def joinWith (sep : String) : List String → String
  | [] => ""
  | [x] => x
  | x :: y :: rest => x ++ sep ++ joinWith sep (y :: rest)

/-- `os.path.join` (posixpath, two arguments): an absolute second part
replaces the first, otherwise the parts are joined with a single slash. -/
def pathJoin (a b : String) : String :=
  if beginsWith "/".data b.data then b
  else if a = "" || (a.data.getLast? == some '/') then a ++ b
  else a ++ "/" ++ b

/-- Index of the last slash of a character list, if any. -/
def lastSlashIdx (l : List Char) : Option Nat :=
  (l.reverse.findIdx? (· == '/')).map (fun i => l.length - 1 - i)

/-- `os.path.split` (posixpath): split at the final slash; the head keeps
its trailing slashes only when it consists of slashes alone. -/
def pathSplit (p : String) : String × String :=
  let l := p.data
  match lastSlashIdx l with
  | none => ("", p)
  | some j =>
    let head := l.take (j + 1)
    let tail := l.drop (j + 1)
    let head' := if head.all (· == '/') then head
                 else (head.reverse.dropWhile (· == '/')).reverse
    (String.mk head', String.mk tail)

/-- `os.path.dirname` (posixpath): the head component of `pathSplit`. -/
def pathDirname (p : String) : String := (pathSplit p).1

/-- `posixpath.normpath`: drop empty and `.` components, resolve `..`
against preceding components, keep the leading-slash count (`//` is
special-cased as in CPython). -/
def normpath (p : String) : String :=
  if p = "" then "."
  else
    let initSlashes : Nat :=
      if beginsWith "/".data p.data then
        (if beginsWith "//".data p.data && !(beginsWith "///".data p.data) then 2 else 1)
      else 0
    let comps := splitOnChS '/' p
    let newComps := comps.foldl (fun (acc : List String) comp =>
      if comp = "" || comp = "." then acc
      else if comp ≠ ".." || (initSlashes = 0 && acc = [])
              || (acc ≠ [] && acc.getLast? = some "..") then acc ++ [comp]
      else if acc ≠ [] then acc.dropLast
      else acc) []
    let res := String.mk (List.replicate initSlashes '/') ++ joinWith "/" newComps
    if res = "" then "." else res

/-- `os.path.abspath` as used on paths built from an absolute input
directory: no working-directory resolution is needed, only `normpath`. -/
def abspathA (p : String) : String := normpath p

/-- Python `s[:len(s)-4]`: for strings of length at least 4 this drops the
last four characters; shorter strings hit Python's negative-index slice
semantics (`s[:n-4] = s[:2*n-4]` clamped at 0). -/
def stemOf (s : String) : String :=
  if s.data.length < 4 then String.mk (s.data.take (2 * s.data.length - 4))
  else String.mk (s.data.take (s.data.length - 4))

/-- Python `importFile.replace("'", "")`: remove every apostrophe
(character code 39). -/
def stripQuotes (s : String) : String :=
  String.mk (s.data.filter (fun c => !(c == Char.ofNat 39)))

/-- A directive of a parsed source file, as produced by the external
`solidity_parser` library: a pragma carries its version text, an import
carries its path text.  The library's `ImportDirective` nodes always carry
a `path` attribute, so the dead `KeyError` handler of `parseImportList`
has no counterpart here. -/
inductive SolItem where
  | pragmaDir (value : String)
  | importDir (path : String)
  | other
deriving DecidableEq, Repr

/-- The ambient state read by the tool: `ex` is `os.path.exists`,
`size` is `os.path.getsize`, `samefile` is `os.path.samefile`,
`parsed` is the structured-parser oracle (`none` models a parser
exception) and `content` is the text read from a file. -/
structure FS where
  ex : String → Bool
  size : String → Nat
  samefile : String → String → Bool
  parsed : String → Option (List SolItem)
  content : String → String

/-- `re.search(needle, hay) != None` for a literal pattern: substring test. -/
def containsSub (needle : List Char) : List Char → Bool
  | [] => beginsWith needle []
  | c :: rest => beginsWith needle (c :: rest) || containsSub needle rest

/-- First match of the regex `0\.[0-9\.]*`: the leftmost `0` followed by a
dot, extended by the longest run of digits and dots. -/
def regex0Aux : List Char → Option String
  | [] => none
  | '0' :: '.' :: rest =>
    some ("0." ++ String.mk (rest.takeWhile (fun c => c.isDigit || c == '.')))
  | _ :: rest => regex0Aux rest

/-- `re.search('0\.[0-9\.]*', s)` on a string. -/
def regex0 (s : String) : Option String := regex0Aux s.data

/-- `parseVersionReadline`: scan the lines of the file; on the first line
containing `pragma` and a `0.`-version pattern return that pattern,
otherwise the `"unknown version"` sentinel. -/
def parseVersionReadline (content : String) : String :=
  ((splitOnChS '\n' content).findSome? (fun line =>
    if containsSub "pragma".data line.data && (regex0 line).isSome
    then regex0 line else none)).getD "unknown version"

/-- `parseVersion`: the first pragma directive's value from the structured
parse; on a parser exception fall back to `parseVersionReadline`; with no
pragma directive return the `"unknown version"` sentinel. -/
def parseVersionFile (fs : FS) (filePath : String) : String :=
  match fs.parsed filePath with
  | none => parseVersionReadline (fs.content filePath)
  | some items =>
    (items.findSome? (fun item =>
      match item with
      | SolItem.pragmaDir v => some v
      | _ => none)).getD "unknown version"

/-- `parseImportList`: the path of every import directive in source order
from the structured parse; an empty list on a parser exception (imports
have no line-scanning fallback). -/
def parseImportListFile (fs : FS) (filePath : String) : List String :=
  match fs.parsed filePath with
  | none => []
  | some items =>
    items.foldl (fun result item =>
      match item with
      | SolItem.importDir p => result ++ [p]
      | _ => result) []

/-- The path of an import directive, if the item is one. -/
def importPathOf : SolItem → Option String
  | SolItem.importDir p => some p
  | _ => none

/-- One entry of a directory listing: a plain file or a subdirectory with
its own listing.  `os.listdir` names never contain a slash. -/
inductive DirEntry where
  | file (name : String)
  | dir (name : String) (entries : List DirEntry)
deriving Repr

/-- `re.match("[\S]*.sol$", name)`: the unescaped dot is a wildcard, so a
name matches when (after an optional trailing newline admitted by `$`) it
ends in `sol`, has length at least 4, the character four from the end is
not a newline, and everything before that character is non-whitespace. -/
def matchesSolPattern (name : String) : Bool :=
  let l := if name.data.getLast? = some '\n' then name.data.dropLast else name.data
  decide (4 ≤ l.length)
    && beginsWith "los".data (l.reverse)
    && (l.getD (l.length - 4) ' ' != '\n')
    && (l.take (l.length - 4)).all (fun c => !isPySpace c)

/-- Python dict assignment `d[k] = v` on an association list: replace the
value at an existing key in place, otherwise append the pair. -/
def insertA (l : List (String × String)) (k v : String) : List (String × String) :=
  if l.any (fun kv => kv.1 == k) then
    l.map (fun kv => if kv.1 == k then (kv.1, v) else kv)
  else l ++ [(k, v)]

mutual

/-- One step of the recursion of `parseContractList`: a non-directory
whose name matches the pattern is added under its absolute path; a
subdirectory's recursive result is merged in (dict update). -/
def parseEntryCL (cur : String) (acc : List (String × String)) :
    DirEntry → List (String × String)
  | DirEntry.file n =>
    let tp := abspathA (pathJoin cur n)
    if matchesSolPattern n then insertA acc tp n else acc
  | DirEntry.dir n sub =>
    let tp := abspathA (pathJoin cur n)
    (parseListCL tp [] sub).foldl (fun r kv => insertA r kv.1 kv.2) acc

/-- The loop of `parseContractList` over a directory listing, with the
result dict as accumulator. -/
def parseListCL (cur : String) (acc : List (String × String)) :
    List DirEntry → List (String × String)
  | [] => acc
  | e :: rest => parseListCL cur (parseEntryCL cur acc e) rest

end

/-- `parseContractList(inputDir)`: absolute path to file name for every
matching file under the given directory tree. -/
def parseContractList (inputDir : String) (entries : List DirEntry) :
    List (String × String) :=
  parseListCL inputDir [] entries

mutual

/-- Every file reachable from one entry (no name filtering), with the
same absolute path construction as `parseContractList`: the reference
against which the scanner's selection is compared. -/
def allFilesEntry (cur : String) : DirEntry → List (String × String)
  | DirEntry.file n => [(abspathA (pathJoin cur n), n)]
  | DirEntry.dir n sub => allFilesList (abspathA (pathJoin cur n)) sub

/-- Every file of the tree (no name filtering). -/
def allFilesList (cur : String) : List DirEntry → List (String × String)
  | [] => []
  | e :: rest => allFilesEntry cur e ++ allFilesList cur rest

end

/-- The shared import-resolution loop of `parseDependency` and
`getLeafNode`: `realPath` is the raw import joined to the importer's
directory; the first scanned file that exists-and-is-samefile replaces it,
otherwise the joined path is kept. -/
def resolveImport (fs : FS) (result : List (String × String))
    (dirName importFile : String) : String :=
  let realPath := pathJoin dirName importFile
  match result.find? (fun kv => fs.ex realPath && fs.samefile kv.1 realPath) with
  | some kv => kv.1
  | none => realPath

/-- `nodeList[realPath] += 1` on the association list (dict keys are
unique, so at most one entry changes). -/
def bump (nl : List (String × Nat)) (k : String) : List (String × Nat) :=
  nl.map (fun x => if x.1 == k then (x.1, x.2 + 1) else x)

/-- Python `nodeList[k]` lookup. -/
def lookupA (nl : List (String × Nat)) (k : String) : Option Nat :=
  (nl.find? (fun x => x.1 == k)).map (fun x => x.2)

/-- The counting loops of `getLeafNode` over an already-computed contract
list: every scanned file starts at 0; for every scanned file and every one
of its imports, the resolved path's entry is incremented when it is a
scanned file. -/
def getLeafNodeAux (fs : FS) (result : List (String × String)) :
    List (String × Nat) :=
  result.foldl (fun nl kv =>
    (parseImportListFile fs kv.1).foldl (fun nl2 imp =>
      let rp := resolveImport fs result (pathDirname kv.1) imp
      if result.any (fun kv2 => kv2.1 == rp) then bump nl2 rp else nl2) nl)
    (result.map (fun kv => (kv.1, 0)))

/-- `getLeafNode(inputDir)`. -/
def getLeafNode (fs : FS) (inputDir : String) (entries : List DirEntry) :
    List (String × Nat) :=
  getLeafNodeAux fs (parseContractList inputDir entries)

/-- The graph built by `graphviz.Digraph`: node declarations (name, label)
and directed edges (tail, head), in insertion order. -/
structure Digraph where
  nodes : List (String × String)
  edges : List (String × String)
deriving DecidableEq, Repr

/-- The two loops of `parseDependency` over an already-computed contract
list: a labelled node per scanned file, then per import an edge from the
resolved path to the importer, declaring a 404-labelled node first when
the resolved path is not a scanned file. -/
def parseDependencyAux (fs : FS) (result : List (String × String)) : Digraph :=
  let withNodes : Digraph :=
    result.foldl (fun g kv =>
      { g with nodes := g.nodes ++
          [(kv.1, "\x7b" ++ kv.2 ++ "|path: " ++ kv.1 ++ "|version: "
              ++ parseVersionFile fs kv.1 ++ "\x7d")] })
      ⟨[], []⟩
  result.foldl (fun g kv =>
    (parseImportListFile fs kv.1).foldl (fun g2 imp =>
      let rp := resolveImport fs result (pathDirname kv.1) imp
      if result.any (fun kv2 => kv2.1 == rp) then
        { g2 with edges := g2.edges ++ [(rp, kv.1)] }
      else
        { g2 with nodes := g2.nodes ++ [(rp, "\x7b404|path: " ++ rp ++ "\x7d")],
                  edges := g2.edges ++ [(rp, kv.1)] }) g) withNodes

/-- `parseDependency(inputDir, outputDir, graph)`: the returned graph
(the optional `render` call only rasterizes it and is not modelled). -/
def parseDependencyFull (fs : FS) (inputDir : String) (entries : List DirEntry) :
    Digraph :=
  parseDependencyAux fs (parseContractList inputDir entries)

/-- The loops of `calculateImportLib` over an already-computed contract
list: per file, every quote-stripped import whose join with the file's
directory does not exist is appended to `lib` and flags the file; the
result is (flagged-file count, scanned-file count, `list(set(lib))`).
CPython's set iteration order is hash-dependent and unspecified; the
deduplication is modelled with `List.dedup`, which fixes one concrete
order while preserving the underlying set. -/
def calculateImportLibAux (fs : FS) (result : List (String × String)) :
    Nat × Nat × List String :=
  let z := result.foldl (fun (st : Nat × List String) kv =>
    let inner := (parseImportListFile fs kv.1).foldl
      (fun (st2 : Bool × List String) imp =>
        let imp' := stripQuotes imp
        let dirName := pathDirname kv.1
        if fs.ex (pathJoin dirName imp') then st2
        else (true, st2.2 ++ [imp'])) (false, st.2)
    (if inner.1 then st.1 + 1 else st.1, inner.2)) (0, [])
  (z.1, result.length, z.2.dedup)

/-- `calculateImportLib(inputDir)`. -/
def calculateImportLib (fs : FS) (inputDir : String) (entries : List DirEntry) :
    Nat × Nat × List String :=
  calculateImportLibAux fs (parseContractList inputDir entries)

/-- What processing one file in a compile driver amounts to: skipped
because the artifact exists non-empty, skipped because the version is the
unknown sentinel, an uncaught exception raised by `switchVersion`'s
regex (`.group(0)` on `None`), or a compile carrying the clean version
switched to and the full solc command string. -/
inductive FileOutcome where
  | skippedArtifact
  | skippedUnknownVersion
  | raised
  | compiled (cleanVersion cmd : String)
deriving DecidableEq, Repr

/-- Does the outcome invoke the solc subprocess? -/
def invokesCompiler : FileOutcome → Bool
  | FileOutcome.compiled _ _ => true
  | _ => false

/-- Does the outcome invoke the solc-select version switch?  The raised
case aborts inside `switchVersion` before any subprocess runs. -/
def invokesSwitch : FileOutcome → Bool
  | FileOutcome.compiled _ _ => true
  | _ => false

/-- The per-file body of `compileDapp` (lines 263-290): artifact
exists-and-non-empty skip, version extraction with unknown-version skip,
version switch, remap-flag construction from `calculateImportLib` over the
whole scan, and the solc command.  `scan` is the contract list that
`calculateImportLib(inputDir)` recomputes inside the loop. -/
def compileDappStep (fs : FS) (scan : List (String × String))
    (inputDir outputDir contractPath contractName : String) : FileOutcome :=
  let targetPath := pathJoin outputDir (stemOf contractName ++ ".json")
  if fs.ex targetPath && (fs.size targetPath != 0) then
    FileOutcome.skippedArtifact
  else
    let version := parseVersionFile fs contractPath
    if version == "unknown version" then
      FileOutcome.skippedUnknownVersion
    else
      match regex0 version with
      | none => FileOutcome.raised
      | some cleanVersion =>
        let basePath := pathJoin (pathDirname inputDir) "node_modules"
        let importLibs := (calculateImportLibAux fs scan).2.2
        let compileCommand :=
          importLibs.foldl (fun c importLib =>
            let lib0 := ((splitOnChS (Char.ofNat 47) importLib).headD "")
            if lib0 == "." then c
            else c ++ lib0 ++ "=" ++ pathJoin basePath lib0 ++ " ")
            "solc --combined-json abi,bin,bin-runtime,srcmap,srcmap-runtime,ast "
        FileOutcome.compiled cleanVersion
          (compileCommand ++ contractPath ++ " > " ++ targetPath
            ++ " --allow-paths " ++ pathDirname inputDir)

/-- The per-file body of `compileLeafNodes` (lines 229-254): the same
sequence, with the contract name taken from `os.path.split(leafNode)`. -/
def compileLeafStep (fs : FS) (scan : List (String × String))
    (inputDir outputDir leafNode : String) : FileOutcome :=
  let contractName := (pathSplit leafNode).2
  let targetPath := pathJoin outputDir (stemOf contractName ++ ".json")
  if fs.ex targetPath && (fs.size targetPath != 0) then
    FileOutcome.skippedArtifact
  else
    let version := parseVersionFile fs leafNode
    if version == "unknown version" then
      FileOutcome.skippedUnknownVersion
    else
      match regex0 version with
      | none => FileOutcome.raised
      | some cleanVersion =>
        let basePath := pathJoin (pathDirname inputDir) "node_modules"
        let importLibs := (calculateImportLibAux fs scan).2.2
        let compileCommand :=
          importLibs.foldl (fun c importLib =>
            let lib0 := ((splitOnChS (Char.ofNat 47) importLib).headD "")
            if lib0 == "." then c
            else c ++ lib0 ++ "=" ++ pathJoin basePath lib0 ++ " ")
            "solc --combined-json abi,bin,bin-runtime,srcmap,srcmap-runtime,ast "
        FileOutcome.compiled cleanVersion
          (compileCommand ++ leafNode ++ " > " ++ targetPath
            ++ " --allow-paths " ++ pathDirname inputDir)

/-- The per-file body of `compileContract` (lines 330-352): like the other
two drivers but with no artifact-existence check before the version
extraction. -/
def compileContractStep (fs : FS) (scan : List (String × String))
    (inputDir outputDir leafNode : String) : FileOutcome :=
  let contractName := (pathSplit leafNode).2
  let targetPath := pathJoin outputDir (stemOf contractName ++ ".json")
  let version := parseVersionFile fs leafNode
  if version == "unknown version" then
    FileOutcome.skippedUnknownVersion
  else
    match regex0 version with
    | none => FileOutcome.raised
    | some cleanVersion =>
      let basePath := pathJoin (pathDirname inputDir) "node_modules"
      let importLibs := (calculateImportLibAux fs scan).2.2
      let compileCommand :=
        importLibs.foldl (fun c importLib =>
          let lib0 := ((splitOnChS (Char.ofNat 47) importLib).headD "")
          if lib0 == "." then c
          else c ++ lib0 ++ "=" ++ pathJoin basePath lib0 ++ " ")
          "solc --combined-json abi,bin,bin-runtime,srcmap,srcmap-runtime,ast "
      FileOutcome.compiled cleanVersion
        (compileCommand ++ leafNode ++ " > " ++ targetPath
          ++ " --allow-paths " ++ pathDirname inputDir)

/-- The loop of `compileDapp` under its `try`: files are processed in
order; the first raised exception ends the loop and makes the driver
return `False`; otherwise it returns `True`.  The processed files and
their outcomes are recorded. -/
def compileDappGo (fs : FS) (scan : List (String × String))
    (inputDir outputDir : String) (acc : List (String × FileOutcome)) :
    List (String × String) → Bool × List (String × FileOutcome)
  | [] => (true, acc)
  | (p, n) :: rest =>
    match compileDappStep fs scan inputDir outputDir p n with
    | FileOutcome.raised => (false, acc ++ [(p, FileOutcome.raised)])
    | o => compileDappGo fs scan inputDir outputDir (acc ++ [(p, o)]) rest

/-- `compileDapp`'s loop over a contract list. -/
def compileDappRun (fs : FS) (scan : List (String × String))
    (inputDir outputDir : String) : Bool × List (String × FileOutcome) :=
  compileDappGo fs scan inputDir outputDir [] scan

/-- `compileDapp(inputDir, outputDir)`. -/
def compileDapp (fs : FS) (entries : List DirEntry)
    (inputDir outputDir : String) : Bool × List (String × FileOutcome) :=
  compileDappRun fs (parseContractList inputDir entries) inputDir outputDir

/-- `compartmentalize_and_compile_contracts` from `main.py`: draw the
dependency graph when asked, then always run the full-set driver.  The
`contractName` and `debug` arguments are accepted and never used. -/
def compartmentalizeAndCompileContracts (fs : FS) (entries : List DirEntry)
    (inputDir outputDir contractName : String) (graph debug : Bool) :
    Option Digraph × (Bool × List (String × FileOutcome)) :=
  ((if graph then some (parseDependencyFull fs inputDir entries) else none),
   compileDapp fs entries inputDir outputDir)

/-- Index of the last `;` of a character list, if any. -/
def lastSemiIdx (run : List Char) : Option Nat :=
  (run.reverse.findIdx? (· == ';')).map (fun i => run.length - 1 - i)

/-- Greedy `[\S]*;` at the head of `l`: the maximal non-whitespace run
must contain a `;`; the match ends at the run's last `;` (backtracking of
the greedy star).  Returns the text before that `;` and the rest after
it. -/
def runToSemi (l : List Char) : Option (List Char × List Char) :=
  let run := l.takeWhile (fun c => !isPySpace c)
  match lastSemiIdx run with
  | none => none
  | some j => some (run.take j, l.drop (j + 1))

/-- `pragma solidity [\S]*;` anchored at the head: returns the full match
text and the rest. -/
def matchPragmaAt (l : List Char) : Option (List Char × List Char) :=
  if beginsWith "pragma solidity ".data l then
    match runToSemi (l.drop 16) with
    | none => none
    | some (g, rest) => some ("pragma solidity ".data ++ g ++ [';'], rest)
  else none

/-- `import[\s]*([\S]*);` anchored at the head: returns the captured group
(the text between the whitespace run and the run's last `;`) and the
rest. -/
def matchP1At (l : List Char) : Option (List Char × List Char) :=
  if beginsWith "import".data l then
    let r := l.drop 6
    let r2 := r.dropWhile isPySpace
    runToSemi r2
  else none

/-- Tail `[\s]*([\S]*);` of the `import ... from` pattern, after the
literal `from`. -/
def p2Tail (t : List Char) : Option (List Char × List Char) :=
  runToSemi (t.dropWhile isPySpace)

/-- Backtracking over the split of the first non-whitespace run `R` of
`import[\s]*[\S]*[\s]*from...`: the literal `from` is looked for inside
`R` at offsets `k, k-1, ..., 0` (the greedy `[\S]*` prefers the longest
prefix of `R`). -/
def p2TryInside (R afterR : List Char) : Nat → Option (List Char × List Char)
  | 0 => if beginsWith "from".data R then p2Tail (R.drop 4 ++ afterR) else none
  | k + 1 =>
    if beginsWith "from".data (R.drop (k + 1)) then
      match p2Tail (R.drop (k + 1 + 4) ++ afterR) with
      | some res => some res
      | none => p2TryInside R afterR k
    else p2TryInside R afterR k

/-- `import[\s]*[\S]*[\s]*from[\s]*([\S]*);` anchored at the head: the
highest-priority decomposition takes the whole first non-whitespace run as
the middle `[\S]*` and looks for `from` after the following whitespace;
on failure the run is backtracked and `from` looked for inside it. -/
def matchP2At (l : List Char) : Option (List Char × List Char) :=
  if beginsWith "import".data l then
    let r := (l.drop 6).dropWhile isPySpace
    let R := r.takeWhile (fun c => !isPySpace c)
    let afterR := r.drop R.length
    let whole :=
      let t := afterR.dropWhile isPySpace
      if beginsWith "from".data t then p2Tail (t.drop 4) else none
    match whole with
    | some res => some res
    | none => match R.length with
      | 0 => none
      | k + 1 => p2TryInside R afterR k
  else none

/-- `re.search`: the leftmost position at which the anchored matcher
succeeds; returns the matcher's payload and rest. -/
def searchPat (matchAt : List Char → Option (List Char × List Char)) :
    List Char → Option (List Char × List Char)
  | [] => matchAt []
  | c :: rest =>
    match matchAt (c :: rest) with
    | some res => some res
    | none => searchPat matchAt rest

/-- `re.sub(pat, '', s)`: remove every non-overlapping match in one
left-to-right pass.  The fuel is the string length; every match consumes
at least one character, so the fuel never runs out on a full pass. -/
def subAllAux (matchAt : List Char → Option (List Char × List Char)) :
    Nat → List Char → List Char
  | 0, l => l
  | n + 1, l =>
    match matchAt l with
    | some (_, rest) => subAllAux matchAt n rest
    | none =>
      match l with
      | [] => []
      | c :: t => c :: subAllAux matchAt n t

/-- `re.sub` over a list with exactly enough fuel. -/
def subAll (matchAt : List Char → Option (List Char × List Char))
    (l : List Char) : List Char :=
  subAllAux matchAt l.length l

/-- Every capture group of `import[\s]*([\S]*);` found by repeated
leftmost search: the import directives of a text, in order. -/
def p1Groups : Nat → List Char → List String
  | 0, _ => []
  | n + 1, l =>
    match searchPat matchP1At l with
    | none => []
    | some (g, rest) => String.mk g :: p1Groups n rest

/-- The first while-loop of `getPackedContract` (pattern 1): search the
first import, remove every pattern occurrence, resolve the captured path
against the contract path and then the module path, inline the recursive
pack (failure propagates), repeat on the reduced text.  `recur` is the
enclosing function at smaller fuel; the loop fuel is bounded by the text
length since each round removes at least the found match. -/
def packLoop1 (fs : FS) (recur : String → Option (String × String))
    (contractPath nodeModulePath : String) :
    Nat → List Char → String → Option (List Char × String)
  | 0, s, acc => some (s, acc)
  | fl + 1, s, acc =>
    match searchPat matchP1At s with
    | none => some (s, acc)
    | some (g, _) =>
      let s' := subAll matchP1At s
      let targetPath1 := pathJoin contractPath (String.mk g)
      let targetPath2 := pathJoin nodeModulePath (String.mk g)
      if fs.ex targetPath1 then
        match recur targetPath1 with
        | none => none
        | some vr => packLoop1 fs recur contractPath nodeModulePath fl s' (acc ++ vr.2)
      else if fs.ex targetPath2 then
        match recur targetPath2 with
        | none => none
        | some vr => packLoop1 fs recur contractPath nodeModulePath fl s' (acc ++ vr.2)
      else none

/-- The second while-loop of `getPackedContract` (pattern 2,
`import ... from ...;`), identical in structure. -/
def packLoop2 (fs : FS) (recur : String → Option (String × String))
    (contractPath nodeModulePath : String) :
    Nat → List Char → String → Option (List Char × String)
  | 0, s, acc => some (s, acc)
  | fl + 1, s, acc =>
    match searchPat matchP2At s with
    | none => some (s, acc)
    | some (g, _) =>
      let s' := subAll matchP2At s
      let targetPath1 := pathJoin contractPath (String.mk g)
      let targetPath2 := pathJoin nodeModulePath (String.mk g)
      if fs.ex targetPath1 then
        match recur targetPath1 with
        | none => none
        | some vr => packLoop2 fs recur contractPath nodeModulePath fl s' (acc ++ vr.2)
      else if fs.ex targetPath2 then
        match recur targetPath2 with
        | none => none
        | some vr => packLoop2 fs recur contractPath nodeModulePath fl s' (acc ++ vr.2)
      else none

/-- `getPackedContract(contractPath, nodeModulePath)`: `none` is the
`("failed", "failed")` sentinel.  The pragma pattern must match (its text
is the returned version); every pragma occurrence is removed; the
two import loops run (the first loop's accumulated text is discarded by the
source's `result = ""` reset before the second loop); the remaining text
is appended.  The fuel bounds the recursion depth through inlined files;
Python diverges on cyclic imports, modelled here as failure at fuel 0. -/
def getPackedContractF (fs : FS) :
    Nat → String → String → Option (String × String)
  | 0, _, _ => none
  | fuel + 1, contractPath, nodeModulePath =>
    let cs := (fs.content contractPath).data
    match searchPat matchPragmaAt cs with
    | none => none
    | some (ver, _) =>
      let s1 := subAll matchPragmaAt cs
      match packLoop1 fs (fun p => getPackedContractF fs fuel p nodeModulePath)
          contractPath nodeModulePath (s1.length + 1) s1 "" with
      | none => none
      | some (s2, _) =>
        match packLoop2 fs (fun p => getPackedContractF fs fuel p nodeModulePath)
            contractPath nodeModulePath (s2.length + 1) s2 "" with
        | none => none
        | some (s3, acc2) =>
          some (String.mk ver, acc2 ++ String.mk s3)

/-- The writing loop of `getPacked`: for every node path, re-derive the
contract path and packed-artifact path, pack, and append a write unless
the pack failed.  (The out-degree filter of the source is commented out:
every scanned file is packed.) -/
def packWrites (fs : FS) (fuel : Nat) (outputDir nodeModulePath : String)
    (leafNodes : List String) : List (String × String) :=
  leafNodes.foldl (fun ws leafNode =>
    let sp := pathSplit leafNode
    let contractPath := pathJoin sp.1 sp.2
    let contractName := stemOf sp.2
    let targetPath := pathJoin outputDir (contractName ++ "_packed.sol")
    match getPackedContractF fs fuel contractPath nodeModulePath with
    | none => ws
    | some vc => ws ++ [(targetPath, vc.1 ++ "\n" ++ vc.2)]) []

/-- `getPacked(inputDir, outputDir)`. -/
def getPacked (fs : FS) (fuel : Nat) (inputDir outputDir : String)
    (entries : List DirEntry) : List (String × String) :=
  packWrites fs fuel outputDir (pathJoin (pathDirname inputDir) "node_modules")
    ((getLeafNode fs inputDir entries).map Prod.fst)

/-! ### Derived specification notions -/

/-- The resolved targets of one scanned file's imports (the values the
counting loop of `getLeafNode` computes for that file). -/
def targetsOfFile (fs : FS) (result : List (String × String))
    (kv : String × String) : List String :=
  (parseImportListFile fs kv.1).map (resolveImport fs result (pathDirname kv.1))

/-- All resolved import targets over a scanned file set, in loop order. -/
def resolvedTargets (fs : FS) (result : List (String × String)) : List String :=
  result.flatMap (targetsOfFile fs result)

/-- Is this raw import unresolved in the sense of `calculateImportLib`:
its quote-stripped text joined to the importing file's directory does not
exist? -/
def importUnresolved (fs : FS) (path imp : String) : Bool :=
  !fs.ex (pathJoin (pathDirname path) (stripQuotes imp))

/-- The quote-stripped unresolved imports of one file, in source order. -/
def unresolvedImportsOf (fs : FS) (path : String) : List String :=
  ((parseImportListFile fs path).map stripQuotes).filter
    (fun i => !fs.ex (pathJoin (pathDirname path) i))

/-- All unresolved imports over a scanned file set, in loop order. -/
def allUnresolved (fs : FS) (result : List (String × String)) : List String :=
  result.flatMap (fun kv => unresolvedImportsOf fs kv.1)

/-! ### Helper lemmas -/

theorem foldl_imports_eq_filterMap (items : List SolItem) :
    ∀ acc : List String,
      items.foldl (fun result item =>
        match item with
        | SolItem.importDir p => result ++ [p]
        | _ => result) acc = acc ++ items.filterMap importPathOf := by
  induction items with
  | nil => intro acc; simp
  | cons it rest ih =>
    intro acc
    cases it <;> simp [List.foldl_cons, ih, importPathOf, List.filterMap_cons]

theorem parseImportListFile_eq (fs : FS) (p : String) (items : List SolItem)
    (h : fs.parsed p = some items) :
    parseImportListFile fs p = items.filterMap importPathOf := by
  simp [parseImportListFile, h, foldl_imports_eq_filterMap]

/-- A filesystem on which the structured parser always fails while the
file text plainly contains an import directive and a pragma line: used to
exhibit the fallback asymmetry of the two extractors. -/
def fsAsym : FS :=
  { ex := fun _ => false
    size := fun _ => 0
    samefile := fun _ _ => false
    parsed := fun _ => none
    content := fun _ => "import \"./x.sol\";\npragma solidity 0.8.0;" }

/-- C7: `parseImportList` returns every import directive's path in source
order on a successful structured parse, and the empty sequence on parser
failure; unlike version extraction it never recovers anything from the
raw text (on `fsAsym` the raw text yields a version through the readline
fallback but no imports). -/
theorem parseImportList_no_fallback_spec : ∀ (fs : FS) (p : String),
    (∀ items, fs.parsed p = some items →
      parseImportListFile fs p = items.filterMap importPathOf) ∧
    (fs.parsed p = none → parseImportListFile fs p = []) ∧
    (parseImportListFile fsAsym "/f" = [] ∧
      parseVersionFile fsAsym "/f" = "0.8.0") := by
  intro fs p
  refine ⟨fun items h => parseImportListFile_eq fs p items h, fun h => ?_, ?_, ?_⟩
  · simp [parseImportListFile, h]
  · rfl
  · rfl

theorem parseImportList_no_fallback_witness :
    parseImportListFile fsAsym "/g" = [] ∧ parseVersionFile fsAsym "/g" = "0.8.0" :=
  ⟨((parseImportList_no_fallback_spec fsAsym "/g").2.1 rfl),
   ((parseImportList_no_fallback_spec fsAsym "/g").2.2.2)⟩

/-- C9: the entry point of `main.py` ignores its `contractName` argument:
two runs differing only in that argument produce identical results, and
the compile component is always the full-set driver `compileDapp`. -/
theorem entrypoint_contractName_independent :
    ∀ (fs : FS) (entries : List DirEntry) (inputDir outputDir n1 n2 : String)
      (graph debug : Bool),
      compartmentalizeAndCompileContracts fs entries inputDir outputDir n1 graph debug
        = compartmentalizeAndCompileContracts fs entries inputDir outputDir n2 graph debug ∧
      (compartmentalizeAndCompileContracts fs entries inputDir outputDir n1 graph debug).2
        = compileDapp fs entries inputDir outputDir := by
  intro fs entries inputDir outputDir n1 n2 graph debug
  exact ⟨rfl, rfl⟩

/-- C3: in the full-set and leaf-only drivers, a file whose artifact
exists with non-zero size is skipped — neither solc nor the version
switch runs for it — and a file whose artifact is absent or empty
proceeds to the compile invocation (when its version is identified and
the version regex matches, the outcome is a compile). -/
theorem artifact_skip_spec :
    ∀ (fs : FS) (scan : List (String × String)) (inputDir outputDir p n : String),
    ((fs.ex (pathJoin outputDir (stemOf n ++ ".json"))
        && (fs.size (pathJoin outputDir (stemOf n ++ ".json")) != 0)) = true →
      compileDappStep fs scan inputDir outputDir p n = FileOutcome.skippedArtifact ∧
      invokesCompiler (compileDappStep fs scan inputDir outputDir p n) = false ∧
      invokesSwitch (compileDappStep fs scan inputDir outputDir p n) = false) ∧
    ((fs.ex (pathJoin outputDir (stemOf (pathSplit p).2 ++ ".json"))
        && (fs.size (pathJoin outputDir (stemOf (pathSplit p).2 ++ ".json")) != 0)) = true →
      compileLeafStep fs scan inputDir outputDir p = FileOutcome.skippedArtifact ∧
      invokesCompiler (compileLeafStep fs scan inputDir outputDir p) = false ∧
      invokesSwitch (compileLeafStep fs scan inputDir outputDir p) = false) ∧
    ((fs.ex (pathJoin outputDir (stemOf n ++ ".json"))
        && (fs.size (pathJoin outputDir (stemOf n ++ ".json")) != 0)) = false →
      (parseVersionFile fs p == "unknown version") = false →
      (regex0 (parseVersionFile fs p)).isSome = true →
      invokesCompiler (compileDappStep fs scan inputDir outputDir p n) = true) ∧
    ((fs.ex (pathJoin outputDir (stemOf (pathSplit p).2 ++ ".json"))
        && (fs.size (pathJoin outputDir (stemOf (pathSplit p).2 ++ ".json")) != 0)) = false →
      (parseVersionFile fs p == "unknown version") = false →
      (regex0 (parseVersionFile fs p)).isSome = true →
      invokesCompiler (compileLeafStep fs scan inputDir outputDir p) = true) := by
  intro fs scan inputDir outputDir p n
  refine ⟨fun h => ?_, fun h => ?_, fun h hv hr => ?_, fun h hv hr => ?_⟩
  · simp [compileDappStep, h, invokesCompiler, invokesSwitch]
  · simp [compileLeafStep, h, invokesCompiler, invokesSwitch]
  · obtain ⟨cv, hcv⟩ := Option.isSome_iff_exists.mp hr
    simp [compileDappStep, h, hv, hcv, invokesCompiler]
  · obtain ⟨cv, hcv⟩ := Option.isSome_iff_exists.mp hr
    simp [compileLeafStep, h, hv, hcv, invokesCompiler]

/-- A state where the artifact `/out/A.json` is already present and
non-empty while `/out/B.json` is absent; both sources carry a parsed
pragma `0.8.0`. -/
def fsArt : FS :=
  { ex := fun q => q == "/out/A.json"
    size := fun q => if q == "/out/A.json" then 3 else 0
    samefile := fun _ _ => false
    parsed := fun q =>
      if q == "/in/A.sol" || q == "/in/B.sol" then some [SolItem.pragmaDir "0.8.0"]
      else none
    content := fun _ => "" }

theorem artifact_skip_witness :
    compileDappStep fsArt [] "/in" "/out" "/in/A.sol" "A.sol"
      = FileOutcome.skippedArtifact ∧
    invokesCompiler (compileDappStep fsArt [] "/in" "/out" "/in/B.sol" "B.sol") = true ∧
    invokesCompiler (compileLeafStep fsArt [] "/in" "/out" "/in/B.sol") = true :=
  ⟨((artifact_skip_spec fsArt [] "/in" "/out" "/in/A.sol" "A.sol").1 (by decide)).1,
   (artifact_skip_spec fsArt [] "/in" "/out" "/in/B.sol" "B.sol").2.2.1
     (by decide) (by decide) (by decide),
   (artifact_skip_spec fsArt [] "/in" "/out" "/in/B.sol" "B.sol").2.2.2
     (by decide) (by decide) (by decide)⟩

/-- C2 (amended): the full-set and leaf-only drivers run the identical
per-file step sequence (given the scanner's invariant that the stored name
is the path's base name); the single-contract driver runs the same
version/switch/remap/command steps but has no artifact skip, so it agrees
with the other two exactly when the artifact is absent or empty. -/
theorem driver_steps_amended :
    ∀ (fs : FS) (scan : List (String × String)) (inputDir outputDir p n : String),
    (n = (pathSplit p).2 →
      compileDappStep fs scan inputDir outputDir p n
        = compileLeafStep fs scan inputDir outputDir p) ∧
    ((fs.ex (pathJoin outputDir (stemOf (pathSplit p).2 ++ ".json"))
        && (fs.size (pathJoin outputDir (stemOf (pathSplit p).2 ++ ".json")) != 0)) = false →
      compileLeafStep fs scan inputDir outputDir p
        = compileContractStep fs scan inputDir outputDir p) := by
  intro fs scan inputDir outputDir p n
  constructor
  · intro h; subst h; rfl
  · intro h
    simp only [compileLeafStep, compileContractStep, h, Bool.false_eq_true, if_false]

theorem driver_steps_witness :
    compileDappStep fsArt [] "/in" "/out" "/in/B.sol" "B.sol"
      = compileLeafStep fsArt [] "/in" "/out" "/in/B.sol" ∧
    compileLeafStep fsArt [] "/in" "/out" "/in/B.sol"
      = compileContractStep fsArt [] "/in" "/out" "/in/B.sol" :=
  ⟨(driver_steps_amended fsArt [] "/in" "/out" "/in/B.sol" "B.sol").1 (by decide),
   (driver_steps_amended fsArt [] "/in" "/out" "/in/B.sol" "B.sol").2 (by decide)⟩

/-- C2 counterexample: on a file whose artifact already exists non-empty,
the full-set driver skips (no compiler invocation) while the
single-contract driver builds and issues the solc command — the three
drivers do not share the artifact-skip step. -/
theorem driver_steps_cex :
    compileDappStep fsArt [("/in/A.sol", "A.sol")] "/in" "/out" "/in/A.sol" "A.sol"
      = FileOutcome.skippedArtifact ∧
    compileContractStep fsArt [("/in/A.sol", "A.sol")] "/in" "/out" "/in/A.sol"
      = FileOutcome.compiled "0.8.0"
          "solc --combined-json abi,bin,bin-runtime,srcmap,srcmap-runtime,ast /in/A.sol > /out/A.json --allow-paths /" ∧
    invokesCompiler
      (compileDappStep fsArt [("/in/A.sol", "A.sol")] "/in" "/out" "/in/A.sol" "A.sol") = false ∧
    invokesCompiler
      (compileContractStep fsArt [("/in/A.sol", "A.sol")] "/in" "/out" "/in/A.sol") = true := by
  refine ⟨rfl, ?_, rfl, ?_⟩ <;> rfl

/-- C5: on a two-file set where A's one import resolves to B while B
has no imports, the dependency graph has exactly one edge, directed from
B to A; and on a set whose file's import does not resolve to a scanned
file, a node labelled `404` with the unresolved path is declared and the
single edge runs from that node to the importer. -/
theorem parseDependency_edges_spec :
    ∀ (fs : FS) (pA nA pB nB r : String),
    (parseImportListFile fs pA = [r] →
      parseImportListFile fs pB = [] →
      resolveImport fs [(pA, nA), (pB, nB)] (pathDirname pA) r = pB →
      (parseDependencyAux fs [(pA, nA), (pB, nB)]).edges = [(pB, pA)]) ∧
    (∀ (pC nC q : String),
      parseImportListFile fs pC = [q] →
      (pC == resolveImport fs [(pC, nC)] (pathDirname pC) q) = false →
      (parseDependencyAux fs [(pC, nC)]).edges
        = [(resolveImport fs [(pC, nC)] (pathDirname pC) q, pC)] ∧
      (resolveImport fs [(pC, nC)] (pathDirname pC) q,
        "\x7b404|path: " ++ resolveImport fs [(pC, nC)] (pathDirname pC) q ++ "\x7d")
        ∈ (parseDependencyAux fs [(pC, nC)]).nodes) := by
  intro fs pA nA pB nB r
  constructor
  · intro hA hB hres
    simp [parseDependencyAux, hA, hB, hres]
  · intro pC nC q hC hmem
    have hne : pC ≠ resolveImport fs [(pC, nC)] (pathDirname pC) q := by
      simpa using hmem
    constructor
    · simp [parseDependencyAux, hC, hne]
    · simp [parseDependencyAux, hC, hne]

/-- Files A (importing `./B.sol`, which exists and is samefile with B),
B (no imports) and C (importing a path that exists nowhere). -/
def fsDep : FS :=
  { ex := fun q => q == "/in/./B.sol"
    size := fun _ => 0
    samefile := fun x y => x == "/in/B.sol" && y == "/in/./B.sol"
    parsed := fun q =>
      if q == "/in/A.sol" then some [SolItem.importDir "./B.sol"]
      else if q == "/in/B.sol" then some []
      else if q == "/in/C.sol" then some [SolItem.importDir "missing.sol"]
      else none
    content := fun _ => "" }

theorem parseDependency_edges_witness :
    (parseDependencyAux fsDep [("/in/A.sol", "A.sol"), ("/in/B.sol", "B.sol")]).edges
      = [("/in/B.sol", "/in/A.sol")] ∧
    (parseDependencyAux fsDep [("/in/C.sol", "C.sol")]).edges
      = [("/in/missing.sol", "/in/C.sol")] ∧
    ("/in/missing.sol", "\x7b404|path: /in/missing.sol\x7d")
      ∈ (parseDependencyAux fsDep [("/in/C.sol", "C.sol")]).nodes :=
  ⟨(parseDependency_edges_spec fsDep "/in/A.sol" "A.sol" "/in/B.sol" "B.sol" "./B.sol").1
      (by decide) (by decide) (by decide),
   ((parseDependency_edges_spec fsDep "/in/A.sol" "A.sol" "/in/B.sol" "B.sol" "./B.sol").2
      "/in/C.sol" "C.sol" "missing.sol" (by decide) (by decide)).1,
   ((parseDependency_edges_spec fsDep "/in/A.sol" "A.sol" "/in/B.sol" "B.sol" "./B.sol").2
      "/in/C.sol" "C.sol" "missing.sol" (by decide) (by decide)).2⟩

theorem calcInner_eq (fs : FS) (path : String) :
    ∀ (imps : List String) (st2 : Bool × List String),
      imps.foldl (fun (st2 : Bool × List String) imp =>
          let imp' := stripQuotes imp
          let dirName := pathDirname path
          if fs.ex (pathJoin dirName imp') then st2
          else (true, st2.2 ++ [imp'])) st2
        = (st2.1 || imps.any (fun imp => importUnresolved fs path imp),
           st2.2 ++ ((imps.map stripQuotes).filter
             (fun i => !fs.ex (pathJoin (pathDirname path) i)))) := by
  intro imps
  induction imps with
  | nil => intro st2; simp
  | cons imp rest ih =>
    intro st2
    by_cases h : fs.ex (pathJoin (pathDirname path) (stripQuotes imp)) = true
    · simp [List.foldl_cons, h, ih, importUnresolved]
    · simp only [Bool.not_eq_true] at h
      simp [List.foldl_cons, h, ih, importUnresolved]

theorem calcOuter_eq (fs : FS) :
    ∀ (files : List (String × String)) (st : Nat × List String),
      files.foldl (fun (st : Nat × List String) kv =>
          let inner := (parseImportListFile fs kv.1).foldl
            (fun (st2 : Bool × List String) imp =>
              let imp' := stripQuotes imp
              let dirName := pathDirname kv.1
              if fs.ex (pathJoin dirName imp') then st2
              else (true, st2.2 ++ [imp'])) (false, st.2)
          (if inner.1 then st.1 + 1 else st.1, inner.2)) st
        = (st.1 + files.countP
             (fun kv => (parseImportListFile fs kv.1).any
               (fun imp => importUnresolved fs kv.1 imp)),
           st.2 ++ files.flatMap (fun kv => unresolvedImportsOf fs kv.1)) := by
  intro files
  induction files with
  | nil => intro st; simp
  | cons kv rest ih =>
    intro st
    rw [List.foldl_cons]
    rw [show ((parseImportListFile fs kv.1).foldl
          (fun (st2 : Bool × List String) imp =>
            let imp' := stripQuotes imp
            let dirName := pathDirname kv.1
            if fs.ex (pathJoin dirName imp') then st2
            else (true, st2.2 ++ [imp'])) (false, st.2))
        = (((parseImportListFile fs kv.1).any (fun imp => importUnresolved fs kv.1 imp)),
           st.2 ++ unresolvedImportsOf fs kv.1) from by
      rw [calcInner_eq fs kv.1 (parseImportListFile fs kv.1) (false, st.2)]; simp [unresolvedImportsOf]]
    rw [ih]
    by_cases h : (parseImportListFile fs kv.1).any (fun imp => importUnresolved fs kv.1 imp) = true
    · simp [h, List.countP_cons, List.flatMap_cons, List.append_assoc]; omega
    · simp only [Bool.not_eq_true] at h
      simp [h, List.countP_cons, List.flatMap_cons, List.append_assoc]

/-- C4 (amended): `calculateImportLib` returns the number of files with
at least one unresolved import (each counted once), the number of scanned
files, and a deduplicated list containing exactly the distinct
unresolved import strings — in the unspecified iteration order of a Python set, not
sorted. -/
theorem calculateImportLib_amended :
    ∀ (fs : FS) (result : List (String × String)),
      (calculateImportLibAux fs result).1
        = result.countP (fun kv => (parseImportListFile fs kv.1).any
            (fun imp => importUnresolved fs kv.1 imp)) ∧
      (calculateImportLibAux fs result).2.1 = result.length ∧
      (calculateImportLibAux fs result).2.2.Nodup ∧
      ∀ s, s ∈ (calculateImportLibAux fs result).2.2 ↔ s ∈ allUnresolved fs result := by
  intro fs result
  have h := calcOuter_eq fs result (0, [])
  refine ⟨?_, rfl, ?_, ?_⟩
  · simp [calculateImportLibAux, h]
  · simp [calculateImportLibAux, h, List.nodup_dedup]
  · intro s
    simp [calculateImportLibAux, h, List.mem_dedup, allUnresolved]

/-- One file with two unresolved imports, the first lexicographically
greater than the second. -/
def fsLib : FS :=
  { ex := fun _ => false
    size := fun _ => 0
    samefile := fun _ _ => false
    parsed := fun q =>
      if q == "/in/A.sol" then
        some [SolItem.importDir "z/l.sol", SolItem.importDir "a/l.sol"]
      else none
    content := fun _ => "" }

/-- C4 counterexample: the returned deduplicated list keeps the source
encounter order `z/l.sol, a/l.sol`, which is not sorted. -/
theorem calculateImportLib_unsorted_cex :
    calculateImportLibAux fsLib [("/in/A.sol", "A.sol")]
      = (1, 1, ["z/l.sol", "a/l.sol"]) ∧
    ¬ List.Sorted (fun a b => a ≤ b) ["z/l.sol", "a/l.sol"] := by
  constructor
  · rfl
  · have hlt : ("a/l.sol" : String) < "z/l.sol" := by
      rw [String.lt_iff_toList_lt]
      exact List.Lex.rel (show ('a' : Char) < 'z' by decide)
    intro hs
    exact absurd ((List.sorted_cons.mp hs).1 _ (by simp)) (not_le.mpr hlt)

theorem compileDappGo_cons_nonraise (fs : FS) (scan : List (String × String))
    (inputDir outputDir p n : String) (rest : List (String × String))
    (acc : List (String × FileOutcome))
    (hno : compileDappStep fs scan inputDir outputDir p n ≠ FileOutcome.raised) :
    compileDappGo fs scan inputDir outputDir acc ((p, n) :: rest)
      = compileDappGo fs scan inputDir outputDir
          (acc ++ [(p, compileDappStep fs scan inputDir outputDir p n)]) rest := by
  cases ho : compileDappStep fs scan inputDir outputDir p n with
  | raised => exact absurd ho hno
  | skippedArtifact => simp [compileDappGo, ho]
  | skippedUnknownVersion => simp [compileDappGo, ho]
  | compiled cv cmd => simp [compileDappGo, ho]

theorem compileDappGo_no_raise (fs : FS) (scan : List (String × String))
    (inputDir outputDir : String) :
    ∀ (l : List (String × String)) (acc : List (String × FileOutcome)),
      (∀ pn ∈ l, compileDappStep fs scan inputDir outputDir pn.1 pn.2
          ≠ FileOutcome.raised) →
      compileDappGo fs scan inputDir outputDir acc l
        = (true, acc ++ l.map (fun pn =>
            (pn.1, compileDappStep fs scan inputDir outputDir pn.1 pn.2))) := by
  intro l
  induction l with
  | nil => intro acc _; simp [compileDappGo]
  | cons pn rest ih =>
    intro acc h
    obtain ⟨p, n⟩ := pn
    rw [compileDappGo_cons_nonraise fs scan inputDir outputDir p n rest acc
      (h (p, n) (by simp))]
    rw [ih _ (fun q hq => h q (by simp [hq]))]
    simp

theorem compileDappGo_raise (fs : FS) (scan : List (String × String))
    (inputDir outputDir p n : String) (l2 : List (String × String))
    (hp : compileDappStep fs scan inputDir outputDir p n = FileOutcome.raised) :
    ∀ (l1 : List (String × String)) (acc : List (String × FileOutcome)),
      (∀ pn ∈ l1, compileDappStep fs scan inputDir outputDir pn.1 pn.2
          ≠ FileOutcome.raised) →
      compileDappGo fs scan inputDir outputDir acc (l1 ++ (p, n) :: l2)
        = (false, acc ++ l1.map (fun pn =>
            (pn.1, compileDappStep fs scan inputDir outputDir pn.1 pn.2))
            ++ [(p, FileOutcome.raised)]) := by
  intro l1
  induction l1 with
  | nil =>
    intro acc _
    simp [compileDappGo, hp]
  | cons qn rest ih =>
    intro acc h
    obtain ⟨q, m⟩ := qn
    rw [List.cons_append]
    rw [compileDappGo_cons_nonraise fs scan inputDir outputDir q m (rest ++ (p, n) :: l2)
      acc (h (q, m) (by simp))]
    rw [ih _ (fun x hx => h x (by simp [hx]))]
    simp

/-- C10: if no file of the list makes `switchVersion` raise, `compileDapp`
returns `True` having processed every file; if some file raises (which
happens exactly when its parsed version has no `0.`-substring while not
being the unknown sentinel and its artifact is absent or empty), the
whole driver catches the exception, returns `False`, and the files after
the raising one are never processed. -/
theorem compileDapp_exception_spec :
    ∀ (fs : FS) (scan : List (String × String)) (inputDir outputDir : String),
    ((∀ pn ∈ scan, compileDappStep fs scan inputDir outputDir pn.1 pn.2
        ≠ FileOutcome.raised) →
      compileDappRun fs scan inputDir outputDir
        = (true, scan.map (fun pn =>
            (pn.1, compileDappStep fs scan inputDir outputDir pn.1 pn.2)))) ∧
    (∀ (l1 : List (String × String)) (p n : String) (l2 : List (String × String)),
      scan = l1 ++ (p, n) :: l2 →
      (∀ pn ∈ l1, compileDappStep fs scan inputDir outputDir pn.1 pn.2
          ≠ FileOutcome.raised) →
      compileDappStep fs scan inputDir outputDir p n = FileOutcome.raised →
      compileDappRun fs scan inputDir outputDir
        = (false, l1.map (fun pn =>
            (pn.1, compileDappStep fs scan inputDir outputDir pn.1 pn.2))
            ++ [(p, FileOutcome.raised)])) ∧
    (∀ (p n : String),
      (fs.ex (pathJoin outputDir (stemOf n ++ ".json"))
        && (fs.size (pathJoin outputDir (stemOf n ++ ".json")) != 0)) = false →
      (parseVersionFile fs p == "unknown version") = false →
      regex0 (parseVersionFile fs p) = none →
      compileDappStep fs scan inputDir outputDir p n = FileOutcome.raised) := by
  intro fs scan inputDir outputDir
  refine ⟨fun h => ?_, fun l1 p n l2 hscan h hp => ?_, fun p n h hv hr => ?_⟩
  · rw [compileDappRun, compileDappGo_no_raise fs scan inputDir outputDir scan [] h]
    simp
  · subst hscan
    rw [compileDappRun]
    rw [compileDappGo_raise fs _ inputDir outputDir p n l2 hp l1 [] h]
    simp
  · simp [compileDappStep, h, hv, hr]

/-- A three-file state: A's artifact is present non-empty, B's parsed
pragma value `ABIEncoderV2` has no `0.`-substring (so `switchVersion`
raises on it), C is an ordinary file. -/
def fsRaise : FS :=
  { ex := fun q => q == "/out/A.json"
    size := fun q => if q == "/out/A.json" then 7 else 0
    samefile := fun _ _ => false
    parsed := fun q =>
      if q == "/in/A.sol" then some [SolItem.pragmaDir "0.8.0"]
      else if q == "/in/B.sol" then some [SolItem.pragmaDir "ABIEncoderV2"]
      else if q == "/in/C.sol" then some [SolItem.pragmaDir "0.8.0"]
      else none
    content := fun _ => "" }

/-- The scan list of `fsRaise`. -/
def scanRaise : List (String × String) :=
  [("/in/A.sol", "A.sol"), ("/in/B.sol", "B.sol"), ("/in/C.sol", "C.sol")]

theorem compileDapp_exception_witness :
    compileDappRun fsRaise scanRaise "/in" "/out"
      = (false, [("/in/A.sol", FileOutcome.skippedArtifact),
                 ("/in/B.sol", FileOutcome.raised)]) :=
  ((compileDapp_exception_spec fsRaise scanRaise "/in" "/out").2.1
      [("/in/A.sol", "A.sol")] "/in/B.sol" "B.sol" [("/in/C.sol", "C.sol")]
      rfl (by decide)
      ((compileDapp_exception_spec fsRaise scanRaise "/in" "/out").2.2
        "/in/B.sol" "B.sol" (by decide) (by decide) (by decide))).trans
    (by decide)

theorem lookupA_cons (a : String) (c : Nat) (xs : List (String × Nat)) (k : String) :
    lookupA ((a, c) :: xs) k = if a = k then some c else lookupA xs k := by
  by_cases h : a = k <;> simp [lookupA, List.find?_cons, h]

theorem lookupA_bump (r k : String) :
    ∀ nl : List (String × Nat),
      lookupA (bump nl r) k
        = if k = r then (lookupA nl k).map (· + 1) else lookupA nl k := by
  intro nl
  induction nl with
  | nil => by_cases h : k = r <;> simp [bump, lookupA, h]
  | cons x xs ih =>
    obtain ⟨a, c⟩ := x
    by_cases har : a = r
    · rw [show bump ((a, c) :: xs) r = (a, c + 1) :: bump xs r from by simp [bump, har]]
      by_cases hak : a = k
      · have hkr : k = r := by rw [← hak, har]
        rw [lookupA_cons, lookupA_cons, if_pos hak, if_pos hak, if_pos hkr]
        rfl
      · rw [lookupA_cons, lookupA_cons, if_neg hak, if_neg hak, ih]
    · rw [show bump ((a, c) :: xs) r = (a, c) :: bump xs r from by simp [bump, har]]
      by_cases hak : a = k
      · have hkr : ¬ k = r := fun hh => har (by rw [hak, hh])
        rw [lookupA_cons, lookupA_cons, if_pos hak, if_pos hak, if_neg hkr]
      · rw [lookupA_cons, lookupA_cons, if_neg hak, if_neg hak, ih]

theorem bump_keys (r : String) :
    ∀ nl : List (String × Nat), (bump nl r).map Prod.fst = nl.map Prod.fst := by
  intro nl
  induction nl with
  | nil => rfl
  | cons x xs ih =>
    by_cases h : x.1 = r <;> simp [bump, h] <;>
      simpa [bump] using ih

theorem innerFold_keys (fs : FS) (result : List (String × String)) (dirName : String) :
    ∀ (imps : List String) (nl : List (String × Nat)),
      (imps.foldl (fun nl2 imp =>
          let rp := resolveImport fs result dirName imp
          if result.any (fun kv2 => kv2.1 == rp) then bump nl2 rp else nl2) nl).map Prod.fst
        = nl.map Prod.fst := by
  intro imps
  induction imps with
  | nil => intro nl; rfl
  | cons imp rest ih =>
    intro nl
    rw [List.foldl_cons]
    by_cases h : result.any
        (fun kv2 => kv2.1 == resolveImport fs result dirName imp) = true <;>
      simp only [h, if_true, Bool.not_eq_true, if_false] <;>
      rw [ih] <;> simp [bump_keys]

theorem getLeafNodeAux_keys (fs : FS) (result : List (String × String)) :
    (getLeafNodeAux fs result).map Prod.fst = result.map Prod.fst := by
  rw [getLeafNodeAux]
  have main : ∀ (files : List (String × String)) (nl : List (String × Nat)),
      (files.foldl (fun nl kv =>
          (parseImportListFile fs kv.1).foldl (fun nl2 imp =>
            let rp := resolveImport fs result (pathDirname kv.1) imp
            if result.any (fun kv2 => kv2.1 == rp) then bump nl2 rp else nl2) nl)
        nl).map Prod.fst = nl.map Prod.fst := by
    intro files
    induction files with
    | nil => intro nl; rfl
    | cons kv rest ih =>
      intro nl
      rw [List.foldl_cons, ih, innerFold_keys]
  rw [main]
  simp

theorem innerFold_count (fs : FS) (result : List (String × String))
    (dirName k : String) (hk : result.any (fun kv => kv.1 == k) = true) :
    ∀ (imps : List String) (nl : List (String × Nat)),
      lookupA (imps.foldl (fun nl2 imp =>
          let rp := resolveImport fs result dirName imp
          if result.any (fun kv2 => kv2.1 == rp) then bump nl2 rp else nl2) nl) k
        = (lookupA nl k).map
            (· + (imps.map (resolveImport fs result dirName)).count k) := by
  intro imps
  induction imps with
  | nil => intro nl; cases h : lookupA nl k <;> simp [h]
  | cons imp rest ih =>
    intro nl
    rw [List.foldl_cons]
    by_cases hrk : resolveImport fs result dirName imp = k
    · rw [show (if result.any (fun kv2 => kv2.1 == resolveImport fs result dirName imp)
            then bump nl (resolveImport fs result dirName imp) else nl) = bump nl k from by
        rw [hrk]; simp [hk]]
      rw [ih, lookupA_bump]
      simp only [if_pos rfl]
      cases h : lookupA nl k <;>
        simp [h, List.count_cons, hrk] <;> omega
    · have hb : ((resolveImport fs result dirName imp) == k) = false := by simp [hrk]
      by_cases hm : result.any
          (fun kv2 => kv2.1 == resolveImport fs result dirName imp) = true
      · rw [show (if result.any (fun kv2 => kv2.1 == resolveImport fs result dirName imp)
              then bump nl (resolveImport fs result dirName imp) else nl)
            = bump nl (resolveImport fs result dirName imp) from by simp [hm]]
        rw [ih, lookupA_bump]
        rw [if_neg (fun hh => hrk hh.symm)]
        cases h : lookupA nl k <;> simp [h, List.count_cons, hb]
      · simp only [Bool.not_eq_true] at hm
        rw [show (if result.any (fun kv2 => kv2.1 == resolveImport fs result dirName imp)
              then bump nl (resolveImport fs result dirName imp) else nl) = nl from by
          simp [hm]]
        rw [ih]
        cases h : lookupA nl k <;> simp [h, List.count_cons, hb]

theorem outerFold_count (fs : FS) (result : List (String × String)) (k : String)
    (hk : result.any (fun kv => kv.1 == k) = true) :
    ∀ (files : List (String × String)) (nl : List (String × Nat)),
      lookupA (files.foldl (fun nl kv =>
          (parseImportListFile fs kv.1).foldl (fun nl2 imp =>
            let rp := resolveImport fs result (pathDirname kv.1) imp
            if result.any (fun kv2 => kv2.1 == rp) then bump nl2 rp else nl2) nl) nl) k
        = (lookupA nl k).map
            (· + (files.flatMap (targetsOfFile fs result)).count k) := by
  intro files
  induction files with
  | nil => intro nl; cases h : lookupA nl k <;> simp [h]
  | cons kv rest ih =>
    intro nl
    rw [List.foldl_cons, ih, innerFold_count fs result (pathDirname kv.1) k hk]
    cases h : lookupA nl k <;>
      simp [h, targetsOfFile, List.count_append] <;> omega

theorem lookupA_init (k : String) :
    ∀ result : List (String × String),
      result.any (fun kv => kv.1 == k) = true →
      lookupA (result.map (fun kv => (kv.1, (0 : Nat)))) k = some 0 := by
  intro result
  induction result with
  | nil => intro h; simp at h
  | cons kv rest ih =>
    intro h
    by_cases hkv : kv.1 = k
    · simp [lookupA, List.find?_cons, hkv]
    · have hfalse : (kv.1 == k) = false := by simp [hkv]
      have hrest : rest.any (fun kv => kv.1 == k) = true := by
        simpa [List.any_cons, hfalse] using h
      simpa [lookupA, List.find?_cons, hfalse] using ih hrest

/-- C1 (amended): the fan-in map of `getLeafNode` has exactly the scanned
files as keys; the count of a scanned file equals the number of
(importer, import) pairs whose resolution — the existence-plus-samefile
scan over the set, falling back to the joined raw path when that string
is itself a key — yields that file, counting every scanned importer
including the file itself; hence a file's count is 0 exactly when no
scanned file's import (not even its own) resolves to it. -/
theorem getLeafNode_count_amended :
    ∀ (fs : FS) (result : List (String × String)) (k : String),
      ((getLeafNodeAux fs result).map Prod.fst = result.map Prod.fst) ∧
      (result.any (fun kv => kv.1 == k) = true →
        lookupA (getLeafNodeAux fs result) k
          = some ((resolvedTargets fs result).count k)) ∧
      (result.any (fun kv => kv.1 == k) = true →
        (lookupA (getLeafNodeAux fs result) k = some 0
          ↔ k ∉ resolvedTargets fs result)) := by
  intro fs result k
  have hcount : result.any (fun kv => kv.1 == k) = true →
      lookupA (getLeafNodeAux fs result) k
        = some ((resolvedTargets fs result).count k) := by
    intro hk
    rw [getLeafNodeAux, outerFold_count fs result k hk, lookupA_init k result hk]
    simp [resolvedTargets]
  refine ⟨getLeafNodeAux_keys fs result, hcount, fun hk => ?_⟩
  rw [hcount hk]
  constructor
  · intro h
    exact (List.count_eq_zero).mp (Option.some_inj.mp h)
  · intro h
    rw [(List.count_eq_zero).mpr h]

/-- A single file that imports itself through `./A.sol` (the joined path
exists and is samefile with the scanned file). -/
def fsSelf : FS :=
  { ex := fun q => q == "/in/./A.sol"
    size := fun _ => 0
    samefile := fun x y => x == "/in/A.sol" && y == "/in/./A.sol"
    parsed := fun q =>
      if q == "/in/A.sol" then some [SolItem.importDir "./A.sol"] else none
    content := fun _ => "" }

/-- C1 counterexample: the self-importing file has fan-in count 1 even
though no *other* file of the set imports it — the claimed equivalence
`count 0 iff never imported by anything else` fails. -/
theorem getLeafNode_self_import_cex :
    lookupA (getLeafNodeAux fsSelf [("/in/A.sol", "A.sol")]) "/in/A.sol" = some 1 ∧
    ∀ kv ∈ [("/in/A.sol", "A.sol")], kv.1 ≠ "/in/A.sol" →
      "/in/A.sol" ∉ targetsOfFile fsSelf [("/in/A.sol", "A.sol")] kv := by
  constructor
  · rfl
  · intro kv hkv hne
    simp only [List.mem_singleton] at hkv
    rw [hkv] at hne
    exact absurd rfl hne

/-- Files A and B where A's one import `./B.sol` resolves to B via the
existence-plus-samefile scan and B imports nothing. -/
def fsAB : FS :=
  { ex := fun q => q == "/in/./B.sol"
    size := fun _ => 0
    samefile := fun x y => x == "/in/B.sol" && y == "/in/./B.sol"
    parsed := fun q =>
      if q == "/in/A.sol" then some [SolItem.importDir "./B.sol"]
      else if q == "/in/B.sol" then some []
      else none
    content := fun _ => "" }

theorem getLeafNode_count_witness :
    lookupA (getLeafNodeAux fsAB [("/in/A.sol", "A.sol"), ("/in/B.sol", "B.sol")])
        "/in/B.sol" = some 1 ∧
    lookupA (getLeafNodeAux fsAB [("/in/A.sol", "A.sol"), ("/in/B.sol", "B.sol")])
        "/in/A.sol" = some 0 :=
  ⟨((getLeafNode_count_amended fsAB
      [("/in/A.sol", "A.sol"), ("/in/B.sol", "B.sol")] "/in/B.sol").2.1
      (by decide)).trans (by decide),
   ((getLeafNode_count_amended fsAB
      [("/in/A.sol", "A.sol"), ("/in/B.sol", "B.sol")] "/in/A.sol").2.1
      (by decide)).trans (by decide)⟩

theorem insertA_fresh (acc : List (String × String)) (k v : String)
    (h : k ∉ acc.map Prod.fst) : insertA acc k v = acc ++ [(k, v)] := by
  rw [insertA, if_neg]
  intro hc
  rw [List.any_eq_true] at hc
  obtain ⟨kv, hkv, hb⟩ := hc
  rw [beq_iff_eq] at hb
  exact h (hb ▸ List.mem_map_of_mem Prod.fst hkv)

theorem mergeFold_eq :
    ∀ (M acc : List (String × String)),
      ((acc.map Prod.fst) ++ (M.map Prod.fst)).Nodup →
      M.foldl (fun r kv => insertA r kv.1 kv.2) acc = acc ++ M := by
  intro M
  induction M with
  | nil => intro acc _; simp
  | cons kv rest ih =>
    intro acc h
    have hfresh : kv.1 ∉ acc.map Prod.fst := by
      intro hmem
      obtain ⟨-, -, hdis⟩ := List.nodup_append.mp h
      exact hdis hmem (by simp)
    rw [List.foldl_cons, insertA_fresh acc kv.1 kv.2 hfresh]
    rw [ih (acc ++ [(kv.1, kv.2)]) (by simpa [List.append_assoc] using h)]
    simp

mutual

theorem parseEntryCL_spec : ∀ (e : DirEntry) (cur : String)
    (acc : List (String × String)),
    ((acc.map Prod.fst) ++ ((allFilesEntry cur e).map Prod.fst)).Nodup →
    parseEntryCL cur acc e
      = acc ++ (allFilesEntry cur e).filter (fun kv => matchesSolPattern kv.2)
  | DirEntry.file n, cur, acc, h => by
    simp only [allFilesEntry, List.map_cons, List.map_nil] at h
    simp only [parseEntryCL, allFilesEntry]
    by_cases hm : matchesSolPattern n = true
    · have hfresh : abspathA (pathJoin cur n) ∉ acc.map Prod.fst := by
        intro hmem
        obtain ⟨-, -, hdis⟩ := List.nodup_append.mp h
        exact hdis hmem (by simp)
      rw [if_pos hm, insertA_fresh acc _ n hfresh]
      simp [List.filter_cons, hm]
    · rw [if_neg hm]
      simp only [Bool.not_eq_true] at hm
      simp [List.filter_cons, hm]
  | DirEntry.dir n sub, cur, acc, h => by
    simp only [allFilesEntry] at h
    simp only [parseEntryCL, allFilesEntry]
    have hS : (([] : List (String × String)).map Prod.fst
        ++ ((allFilesList (abspathA (pathJoin cur n)) sub).map Prod.fst)).Nodup := by
      refine List.Nodup.sublist ?_ h
      simp only [List.map_nil, List.nil_append]
      exact List.sublist_append_right _ _
    rw [parseListCL_spec sub (abspathA (pathJoin cur n)) [] hS, List.nil_append]
    have hMK : List.Sublist
        (((allFilesList (abspathA (pathJoin cur n)) sub).filter
          (fun kv => matchesSolPattern kv.2)).map Prod.fst)
        ((allFilesList (abspathA (pathJoin cur n)) sub).map Prod.fst) :=
      (List.filter_sublist _).map Prod.fst
    rw [mergeFold_eq _ acc (List.Nodup.sublist (hMK.append_left _) h)]

theorem parseListCL_spec : ∀ (entries : List DirEntry) (cur : String)
    (acc : List (String × String)),
    ((acc.map Prod.fst) ++ ((allFilesList cur entries).map Prod.fst)).Nodup →
    parseListCL cur acc entries
      = acc ++ (allFilesList cur entries).filter (fun kv => matchesSolPattern kv.2)
  | [], cur, acc, _ => by simp [parseListCL, allFilesList]
  | e :: rest, cur, acc, h => by
    simp only [allFilesList, List.map_append] at h
    simp only [parseListCL, allFilesList]
    have h₁ : ((acc.map Prod.fst) ++ ((allFilesEntry cur e).map Prod.fst)).Nodup := by
      refine List.Nodup.sublist ?_ h
      exact (List.sublist_append_left _ _).append_left _
    rw [parseEntryCL_spec e cur acc h₁]
    have hEK : List.Sublist
        (((allFilesEntry cur e).filter (fun kv => matchesSolPattern kv.2)).map Prod.fst)
        ((allFilesEntry cur e).map Prod.fst) :=
      (List.filter_sublist _).map Prod.fst
    have h₃ : ((acc.map Prod.fst)
        ++ ((((allFilesEntry cur e).filter
              (fun kv => matchesSolPattern kv.2)).map Prod.fst)
            ++ ((allFilesList cur rest).map Prod.fst))).Nodup :=
      List.Nodup.sublist ((hEK.append (List.Sublist.refl _)).append_left _) h
    rw [parseListCL_spec rest cur _ (by
      simpa [List.map_append, List.append_assoc] using h₃)]
    simp [List.filter_append, List.append_assoc]

end

/-- C8 (amended): on a listing whose generated absolute paths are
distinct, `parseContractList` returns exactly the non-directory entries,
at any depth, whose names match the regex `[\S]*.sol$` — because of the
unescaped dot this admits any name of length at least 4 that ends in
`sol` with a non-whitespace prefix before the arbitrary fourth-from-last
character (e.g. `absol`), while a `.sol` name containing whitespace
before the dot (e.g. `a b.sol`) is rejected — mapping each file's
absolute path to its base name. -/
theorem parseContractList_amended :
    ∀ (inputDir : String) (entries : List DirEntry),
      ((allFilesList inputDir entries).map Prod.fst).Nodup →
      parseContractList inputDir entries
        = (allFilesList inputDir entries).filter (fun kv => matchesSolPattern kv.2) := by
  intro inputDir entries h
  rw [parseContractList, parseListCL_spec entries inputDir [] (by simpa using h)]
  simp

theorem parseContractList_witness :
    ((allFilesList "/in" [DirEntry.file "A.sol",
        DirEntry.dir "d" [DirEntry.file "B.sol"], DirEntry.file "x.txt"]).map
      Prod.fst).Nodup ∧
    parseContractList "/in" [DirEntry.file "A.sol",
        DirEntry.dir "d" [DirEntry.file "B.sol"], DirEntry.file "x.txt"]
      = [("/in/A.sol", "A.sol"), ("/in/d/B.sol", "B.sol")] :=
  ⟨by decide,
   (parseContractList_amended "/in" [DirEntry.file "A.sol",
      DirEntry.dir "d" [DirEntry.file "B.sol"], DirEntry.file "x.txt"]
      (by decide)).trans (by decide)⟩

/-- C8 counterexample: the name `absol` has no `.sol` suffix but is
included by the scanner, while `a b.sol` has the `.sol` suffix but is
excluded (whitespace before the unescaped-dot position). -/
theorem parseContractList_suffix_cex :
    parseContractList "/in" [DirEntry.file "absol", DirEntry.file "a b.sol"]
      = [("/in/absol", "absol")] ∧
    beginsWith (".sol".data.reverse) ("absol".data.reverse) = false ∧
    beginsWith (".sol".data.reverse) ("a b.sol".data.reverse) = true := by
  refine ⟨?_, ?_, ?_⟩ <;> decide

/-- C6 (amended): an unresolvable first import match fails the pack
wherever it occurs.  The conjuncts cover, for both import patterns
(plain `import ...;` and `import ... from ...;`): failure of any
substitution round whose first match resolves neither against the
contract path nor under node_modules; propagation of a failed recursive
pack of a resolved import target; the round-step equations showing that
a successful round continues the same loop on the substituted text (so
every later round is an instance of the same statements); the chaining
of a failed loop to the file's failure sentinel; and the suppression of
the root's `_packed.sol` write.  Imports other than the first match of a
round are removed unchecked by the bulk substitution, so no failure
guarantee holds for them — see the counterexample. -/
theorem getPacked_failure_amended :
    ∀ fs : FS,
    (∀ (recur : String → Option (String × String)) (cp nm : String) (fl : Nat)
        (s : List Char) (acc : String) (g r : List Char),
      searchPat matchP1At s = some (g, r) →
      fs.ex (pathJoin cp (String.mk g)) = false →
      fs.ex (pathJoin nm (String.mk g)) = false →
      packLoop1 fs recur cp nm (fl + 1) s acc = none) ∧
    (∀ (recur : String → Option (String × String)) (cp nm : String) (fl : Nat)
        (s : List Char) (acc : String) (g r : List Char),
      searchPat matchP1At s = some (g, r) →
      fs.ex (pathJoin cp (String.mk g)) = true →
      recur (pathJoin cp (String.mk g)) = none →
      packLoop1 fs recur cp nm (fl + 1) s acc = none) ∧
    (∀ (recur : String → Option (String × String)) (cp nm : String) (fl : Nat)
        (s : List Char) (acc : String) (g r : List Char),
      searchPat matchP1At s = some (g, r) →
      fs.ex (pathJoin cp (String.mk g)) = false →
      fs.ex (pathJoin nm (String.mk g)) = true →
      recur (pathJoin nm (String.mk g)) = none →
      packLoop1 fs recur cp nm (fl + 1) s acc = none) ∧
    (∀ (recur : String → Option (String × String)) (cp nm : String) (fl : Nat)
        (s : List Char) (acc : String) (g r : List Char) (vr : String × String),
      searchPat matchP1At s = some (g, r) →
      fs.ex (pathJoin cp (String.mk g)) = true →
      recur (pathJoin cp (String.mk g)) = some vr →
      packLoop1 fs recur cp nm (fl + 1) s acc
        = packLoop1 fs recur cp nm fl (subAll matchP1At s) (acc ++ vr.2)) ∧
    (∀ (recur : String → Option (String × String)) (cp nm : String) (fl : Nat)
        (s : List Char) (acc : String) (g r : List Char) (vr : String × String),
      searchPat matchP1At s = some (g, r) →
      fs.ex (pathJoin cp (String.mk g)) = false →
      fs.ex (pathJoin nm (String.mk g)) = true →
      recur (pathJoin nm (String.mk g)) = some vr →
      packLoop1 fs recur cp nm (fl + 1) s acc
        = packLoop1 fs recur cp nm fl (subAll matchP1At s) (acc ++ vr.2)) ∧
    (∀ (recur : String → Option (String × String)) (cp nm : String) (fl : Nat)
        (s : List Char) (acc : String) (g r : List Char),
      searchPat matchP2At s = some (g, r) →
      fs.ex (pathJoin cp (String.mk g)) = false →
      fs.ex (pathJoin nm (String.mk g)) = false →
      packLoop2 fs recur cp nm (fl + 1) s acc = none) ∧
    (∀ (recur : String → Option (String × String)) (cp nm : String) (fl : Nat)
        (s : List Char) (acc : String) (g r : List Char),
      searchPat matchP2At s = some (g, r) →
      fs.ex (pathJoin cp (String.mk g)) = true →
      recur (pathJoin cp (String.mk g)) = none →
      packLoop2 fs recur cp nm (fl + 1) s acc = none) ∧
    (∀ (recur : String → Option (String × String)) (cp nm : String) (fl : Nat)
        (s : List Char) (acc : String) (g r : List Char),
      searchPat matchP2At s = some (g, r) →
      fs.ex (pathJoin cp (String.mk g)) = false →
      fs.ex (pathJoin nm (String.mk g)) = true →
      recur (pathJoin nm (String.mk g)) = none →
      packLoop2 fs recur cp nm (fl + 1) s acc = none) ∧
    (∀ (recur : String → Option (String × String)) (cp nm : String) (fl : Nat)
        (s : List Char) (acc : String) (g r : List Char) (vr : String × String),
      searchPat matchP2At s = some (g, r) →
      fs.ex (pathJoin cp (String.mk g)) = true →
      recur (pathJoin cp (String.mk g)) = some vr →
      packLoop2 fs recur cp nm (fl + 1) s acc
        = packLoop2 fs recur cp nm fl (subAll matchP2At s) (acc ++ vr.2)) ∧
    (∀ (recur : String → Option (String × String)) (cp nm : String) (fl : Nat)
        (s : List Char) (acc : String) (g r : List Char) (vr : String × String),
      searchPat matchP2At s = some (g, r) →
      fs.ex (pathJoin cp (String.mk g)) = false →
      fs.ex (pathJoin nm (String.mk g)) = true →
      recur (pathJoin nm (String.mk g)) = some vr →
      packLoop2 fs recur cp nm (fl + 1) s acc
        = packLoop2 fs recur cp nm fl (subAll matchP2At s) (acc ++ vr.2)) ∧
    (∀ (fuel : Nat) (p nm : String),
      packLoop1 fs (fun q => getPackedContractF fs fuel q nm) p nm
          ((subAll matchPragmaAt (fs.content p).data).length + 1)
          (subAll matchPragmaAt (fs.content p).data) "" = none →
      getPackedContractF fs (fuel + 1) p nm = none) ∧
    (∀ (fuel : Nat) (p nm : String) (s2 : List Char) (acc2 : String),
      packLoop1 fs (fun q => getPackedContractF fs fuel q nm) p nm
          ((subAll matchPragmaAt (fs.content p).data).length + 1)
          (subAll matchPragmaAt (fs.content p).data) "" = some (s2, acc2) →
      packLoop2 fs (fun q => getPackedContractF fs fuel q nm) p nm
          (s2.length + 1) s2 "" = none →
      getPackedContractF fs (fuel + 1) p nm = none) ∧
    (∀ (fuel : Nat) (outputDir nm p : String),
      pathJoin (pathSplit p).1 (pathSplit p).2 = p →
      getPackedContractF fs fuel p nm = none →
      packWrites fs fuel outputDir nm [p] = []) := by
  intro fs
  refine ⟨?_, ?_, ?_, ?_, ?_, ?_, ?_, ?_, ?_, ?_, ?_, ?_, ?_⟩
  · intro recur cp nm fl s acc g r h1 hex1 hex2
    rw [packLoop1, h1]
    simp [hex1, hex2]
  · intro recur cp nm fl s acc g r h1 hex1 hrec
    rw [packLoop1, h1]
    simp [hex1, hrec]
  · intro recur cp nm fl s acc g r h1 hex1 hex2 hrec
    rw [packLoop1, h1]
    simp [hex1, hex2, hrec]
  · intro recur cp nm fl s acc g r vr h1 hex1 hrec
    rw [packLoop1, h1]
    simp [hex1, hrec]
  · intro recur cp nm fl s acc g r vr h1 hex1 hex2 hrec
    rw [packLoop1, h1]
    simp [hex1, hex2, hrec]
  · intro recur cp nm fl s acc g r h1 hex1 hex2
    rw [packLoop2, h1]
    simp [hex1, hex2]
  · intro recur cp nm fl s acc g r h1 hex1 hrec
    rw [packLoop2, h1]
    simp [hex1, hrec]
  · intro recur cp nm fl s acc g r h1 hex1 hex2 hrec
    rw [packLoop2, h1]
    simp [hex1, hex2, hrec]
  · intro recur cp nm fl s acc g r vr h1 hex1 hrec
    rw [packLoop2, h1]
    simp [hex1, hrec]
  · intro recur cp nm fl s acc g r vr h1 hex1 hex2 hrec
    rw [packLoop2, h1]
    simp [hex1, hex2, hrec]
  · intro fuel p nm hloop
    rw [getPackedContractF]
    cases hps : searchPat matchPragmaAt (fs.content p).data with
    | none => rfl
    | some vr => simp [hloop]
  · intro fuel p nm s2 acc2 h1 h2
    rw [getPackedContractF]
    cases hps : searchPat matchPragmaAt (fs.content p).data with
    | none => rfl
    | some vr => simp [h1, h2]
  · intro fuel outputDir nm p hjoin hpack
    simp only [packWrites, List.foldl_cons, List.foldl_nil, hjoin, hpack]

/-- A root whose only import `"x.sol"` exists nowhere. -/
def fsPackFail : FS :=
  { ex := fun _ => false
    size := fun _ => 0
    samefile := fun _ _ => false
    parsed := fun _ => some []
    content := fun p =>
      if p == "/in/A.sol" then "pragma solidity 0.8.0;\nimport \"x.sol\";\n"
      else "" }

/-- A root whose only import is an `import x from "y.sol";` directive
(pattern 2) with `"y.sol"` existing nowhere. -/
def fsPackFrom : FS :=
  { ex := fun _ => false
    size := fun _ => 0
    samefile := fun _ _ => false
    parsed := fun _ => some []
    content := fun p =>
      if p == "/in/F.sol" then "pragma solidity 0.8.0;\nimport x from \"y.sol\";\n"
      else "" }

/-- A root whose import `"a.sol"` resolves against the contract path to a
file whose own import `"z.sol"` exists nowhere: the inner failure must
reach the root. -/
def fsPackRec : FS :=
  { ex := fun p => p == "/in/R.sol/\"a.sol\""
    size := fun _ => 0
    samefile := fun _ _ => false
    parsed := fun _ => some []
    content := fun p =>
      if p == "/in/R.sol" then "pragma solidity 0.8.0;\nimport \"a.sol\";\n"
      else if p == "/in/R.sol/\"a.sol\"" then
        "pragma solidity 0.6.0;\nimport \"z.sol\";\n"
      else "" }

theorem getPacked_failure_witness :
    getPackedContractF fsPackFail 2 "/in/A.sol" "/node_modules" = none ∧
    packWrites fsPackFail 2 "/out" "/node_modules" ["/in/A.sol"] = [] ∧
    getPackedContractF fsPackFrom 2 "/in/F.sol" "/node_modules" = none ∧
    getPackedContractF fsPackRec 2 "/in/R.sol" "/node_modules" = none := by
  obtain ⟨hA, -, -, -, -, -, -, -, -, -, hK, -, hM⟩ :=
    getPacked_failure_amended fsPackFail
  obtain ⟨-, -, -, -, -, hF, -, -, -, -, -, hL, -⟩ :=
    getPacked_failure_amended fsPackFrom
  obtain ⟨hA2, hB2, -, -, -, -, -, -, -, -, hK2, -, -⟩ :=
    getPacked_failure_amended fsPackRec
  have hfail : getPackedContractF fsPackFail 2 "/in/A.sol" "/node_modules" = none :=
    hK 1 "/in/A.sol" "/node_modules"
      (hA _ _ _ _ _ "" "\"x.sol\"".data [Char.ofNat 10] rfl rfl rfl)
  have hfrom : getPackedContractF fsPackFrom 2 "/in/F.sol" "/node_modules" = none :=
    hL 1 "/in/F.sol" "/node_modules" _ ""
      rfl
      (hF _ _ _ _ _ "" "\"y.sol\"".data [Char.ofNat 10] rfl rfl rfl)
  have hinner : getPackedContractF fsPackRec 1 "/in/R.sol/\"a.sol\"" "/node_modules"
      = none :=
    hK2 0 "/in/R.sol/\"a.sol\"" "/node_modules"
      (hA2 _ _ _ _ _ "" "\"z.sol\"".data [Char.ofNat 10] rfl rfl rfl)
  have houter : getPackedContractF fsPackRec 2 "/in/R.sol" "/node_modules" = none :=
    hK2 1 "/in/R.sol" "/node_modules"
      (hB2 _ _ _ _ _ "" "\"a.sol\"".data [Char.ofNat 10] rfl rfl hinner)
  exact ⟨hfail, hM 2 "/out" "/node_modules" "/in/A.sol" rfl hfail, hfrom, houter⟩

/-- A root with two imports: `"a.sol"` resolves (against the contract
path, as the code joins) and packs to a pragma-only file, while
`"b.sol"` exists nowhere. -/
def fsPackPartial : FS :=
  { ex := fun p => p == "/in/A.sol/\"a.sol\""
    size := fun _ => 0
    samefile := fun _ _ => false
    parsed := fun _ => some []
    content := fun p =>
      if p == "/in/A.sol" then
        "pragma solidity 0.8.0;\nimport \"a.sol\";\nimport \"b.sol\";\n"
      else if p == "/in/A.sol/\"a.sol\"" then
        "pragma solidity 0.7.0;body"
      else "" }

/-- C6 counterexample: the root's import directives include `"b.sol"`,
which resolves neither against the contract path nor under node_modules,
yet `getPackedContract` succeeds and `getPacked` writes a packed file for
that root (one that silently omits the unresolved import). -/
theorem getPacked_partial_write_cex :
    p1Groups 10 (subAll matchPragmaAt (fsPackPartial.content "/in/A.sol").data)
      = ["\"a.sol\"", "\"b.sol\""] ∧
    fsPackPartial.ex (pathJoin "/in/A.sol" "\"b.sol\"") = false ∧
    fsPackPartial.ex (pathJoin "/node_modules" "\"b.sol\"") = false ∧
    (getPackedContractF fsPackPartial 2 "/in/A.sol" "/node_modules").isSome = true ∧
    getPacked fsPackPartial 2 "/in" "/out" [DirEntry.file "A.sol"]
      = [("/out/A_packed.sol", "pragma solidity 0.8.0;\n\n\n\n")] := by
  refine ⟨?_, ?_, ?_, ?_, ?_⟩ <;> rfl

end SolcDapp
